import Mathlib

/-!
Shallow embedding of the Express + MongoDB + Redis product-catalog service
(`src/index.js`).

The world state is the `products` collection of the document store together
with the single Redis key `"products"`.  Each HTTP handler of `src/index.js`
is embedded as a pure function from the request data, an environment
describing the outcome of the external I/O calls the handler awaits
(store reachable / cache reachable), and the current world, to an HTTP
response, a new world and the ordered trace of external effects executed.
Every handler body in the source is a single `try { ... } catch` block, so a
rejected awaited call short-circuits to the `catch` branch, which responds
`500` with `{error: message}`; the embedding reproduces exactly that control
flow.
-/

/-- A product document.  The store enforces no schema; the embedding fixes
the record of fields the service itself uses (`/populate` generation, search
over `name`/`description`, `/stats` over `price`/`category`).  `_id` is
modelled as `id : String` (Express route parameters are strings), prices
(JavaScript numbers) as `ℚ`, `createdAt` (a JavaScript `Date`) as
milliseconds since the epoch. -/
structure Product where
  id : String
  name : String
  description : String
  price : ℚ
  category : String
  inStock : Bool
  createdAt : Nat
deriving DecidableEq, Repr

/-- JavaScript runtime values the service hands to `res.json` or
`JSON.stringify`: JSON-shaped data plus `Date` objects.  None of the
service's values contain `undefined` inside a structure, so it is omitted;
the one place the source can pass `undefined` itself (`stats[0]` on an empty
aggregation) is modelled separately in the response type. -/
inductive JSVal where
  | vnull
  | vbool (b : Bool)
  | vnum (q : ℚ)
  | vstr (s : String)
  | vdate (ms : Nat)
  | varr (xs : List JSVal)
  | vobj (fields : List (String × JSVal))
deriving Repr

/-- Parse trees of JSON texts: exactly the values `JSON.parse` can return
(no `Date`).  A Redis cache entry holds the text produced by
`JSON.stringify`; the embedding represents that text by its parse tree,
which determines it up to rendering. -/
inductive Json where
  | jnull
  | jbool (b : Bool)
  | jnum (q : ℚ)
  | jstr (s : String)
  | jarr (xs : List Json)
  | jobj (fields : List (String × Json))
deriving Repr

/-- Serialization of a JavaScript `Date` (`Date.prototype.toJSON`, an
ISO-8601 string).  The exact text is irrelevant to every claim; the model
only keeps the mapping injective and distinguishable from other strings. -/
def isoOfDate (ms : Nat) : String := "ISO-8601:" ++ toString ms

mutual
/-- `JSON.stringify` at the level of parse trees: the JSON text produced for
a JavaScript value.  A `Date` serializes to its ISO string; everything else
is already JSON-shaped. -/
def jsonOfJs : JSVal → Json
  | .vnull => .jnull
  | .vbool b => .jbool b
  | .vnum q => .jnum q
  | .vstr s => .jstr s
  | .vdate ms => .jstr (isoOfDate ms)
  | .varr xs => .jarr (jsonOfJsList xs)
  | .vobj fs => .jobj (jsonOfJsFields fs)

def jsonOfJsList : List JSVal → List Json
  | [] => []
  | x :: xs => jsonOfJs x :: jsonOfJsList xs

def jsonOfJsFields : List (String × JSVal) → List (String × Json)
  | [] => []
  | (k, v) :: fs => (k, jsonOfJs v) :: jsonOfJsFields fs
end

mutual
/-- `JSON.parse` of a JSON text (given by its parse tree): the JavaScript
value it denotes.  A serialized `Date` comes back as a plain string. -/
def jsOfJson : Json → JSVal
  | .jnull => .vnull
  | .jbool b => .vbool b
  | .jnum q => .vnum q
  | .jstr s => .vstr s
  | .jarr xs => .varr (jsOfJsonList xs)
  | .jobj fs => .vobj (jsOfJsonFields fs)

def jsOfJsonList : List Json → List JSVal
  | [] => []
  | x :: xs => jsOfJson x :: jsOfJsonList xs

def jsOfJsonFields : List (String × Json) → List (String × JSVal)
  | [] => []
  | (k, v) :: fs => (k, jsOfJson v) :: jsOfJsonFields fs
end

/-- The JavaScript object a product document is materialized as. -/
def jsOfProduct (p : Product) : JSVal :=
  .vobj [("_id", .vstr p.id), ("name", .vstr p.name),
         ("description", .vstr p.description), ("price", .vnum p.price),
         ("category", .vstr p.category), ("inStock", .vbool p.inStock),
         ("createdAt", .vdate p.createdAt)]

/-- The array value `productsCollection.find({}).toArray()` materializes. -/
def jsOfListing (ps : List Product) : JSVal := .varr (ps.map jsOfProduct)

/-- `JSON.stringify(products)`: the cached text for a listing. -/
def wireOfListing (ps : List Product) : Json := jsonOfJs (jsOfListing ps)

/-- One entry of the Redis cache under the key `"products"`: the stored JSON
text and the TTL (seconds) it was written with (`'EX'` argument). -/
structure CacheEntry where
  value : Json
  ttlSeconds : Nat
deriving Repr

/-- Shared mutable state: the `products` collection and the single cache
key `"products"` (`none` = key absent, whether never set, deleted, or
expired-and-evicted). -/
structure World where
  store : List Product
  cache : Option CacheEntry
deriving Repr

/-- Outcome of the external calls one request performs.  A `true` flag means
the corresponding awaited call rejects (MongoDB: connection/timeout/query
failure; ioredis: command rejection once `maxRetriesPerRequest` reconnection
attempts are exhausted, or any command error). -/
structure Env where
  cacheGetFails : Bool
  cacheSetFails : Bool
  cacheDelFails : Bool
  storeQueryFails : Bool
  storeMutateFails : Bool
deriving DecidableEq, Repr

/-- The fully healthy environment: every external call succeeds. -/
def Env.ok : Env := ⟨false, false, false, false, false⟩

/-- External effects a handler executes, in program order. -/
inductive Ev where
  | storeQuery (ok : Bool)
  | storeMutate (ok : Bool)
  | cacheGet (ok : Bool)
  | cacheSet (ok : Bool)
  | cacheDel (ok : Bool)
deriving DecidableEq, Repr

def isStoreQuery : Ev → Bool
  | .storeQuery _ => true
  | _ => false

def isCacheSet : Ev → Bool
  | .cacheSet _ => true
  | _ => false

def isCacheDel : Ev → Bool
  | .cacheDel _ => true
  | _ => false

/-- Number of document-store queries a trace performs (attempts counted). -/
def storeQueries (t : List Ev) : Nat := t.countP isStoreQuery

/-- Number of cache writes a trace performs (attempts counted). -/
def cacheWrites (t : List Ev) : Nat := t.countP isCacheSet

/-- Body of a read-route response.  `res.json(v)` sends the serialization of
`v`; Express sends an empty body when `res.json` is given `undefined`
(`JSON.stringify(undefined)` is not a string), which `/stats` does on an
empty aggregation result. -/
inductive RBody where
  | json (v : JSVal)
  | empty
  | error
deriving Repr

/-- Result of running a read handler: status, body, post-state, effects. -/
structure ReadResult where
  status : Nat
  body : RBody
  world : World
  trace : List Ev
deriving Repr

/-- GET `/products-cached` (src/index.js lines 48-70).  Faithful control
flow: `await redis.get('products')` (a rejection aborts to the catch block
→ 500); a non-null reply is returned parsed (every stored text is a
`JSON.stringify` result, hence a nonempty string, so JavaScript truthiness
of the reply coincides with presence of the key); otherwise
`find({}).toArray()`, then `redis.set('products', JSON.stringify(products),
'EX', 3600)`, then respond with the fresh listing — each awaited rejection
falling through to the catch block. -/
def getProductsCached (env : Env) (w : World) : ReadResult :=
  if env.cacheGetFails then
    ⟨500, .error, w, [.cacheGet false]⟩
  else
    match w.cache with
    | some e =>
        ⟨200, .json (jsOfJson e.value), w, [.cacheGet true]⟩
    | none =>
        if env.storeQueryFails then
          ⟨500, .error, w, [.cacheGet true, .storeQuery false]⟩
        else
          if env.cacheSetFails then
            ⟨500, .error, w,
              [.cacheGet true, .storeQuery true, .cacheSet false]⟩
          else
            ⟨200, .json (jsOfListing w.store),
              { w with cache := some ⟨wireOfListing w.store, 3600⟩ },
              [.cacheGet true, .storeQuery true, .cacheSet true]⟩

/-- Body of a mutation-route response: the driver result object the handler
passes to `res.json`, or the `{error: message}` payload of the catch block. -/
inductive MBody where
  | insertOneRes (insertedId : String)
  | updateRes (matchedCount modifiedCount : Nat)
  | deleteRes (deletedCount : Nat)
  | populateRes (insertedCount : Nat)
  | errorBody
deriving DecidableEq, Repr

/-- Result of running a mutation handler. -/
structure MutResult where
  status : Nat
  body : MBody
  world : World
  trace : List Ev
deriving Repr

/-- First document whose `_id` equals `id` (`findOne`/`updateOne`/`deleteOne`
filter `{_id: req.params.id}`). -/
def findFirst (id : String) : List Product → Option Product
  | [] => none
  | p :: ps => if p.id = id then some p else findFirst id ps

/-- `updateOne`: apply the `$set` patch to the first matching document. -/
def patchFirst (id : String) (patch : Product → Product) :
    List Product → List Product
  | [] => []
  | p :: ps => if p.id = id then patch p :: ps else p :: patchFirst id patch ps

/-- `deleteOne`: remove the first matching document. -/
def removeFirst (id : String) : List Product → List Product
  | [] => []
  | p :: ps => if p.id = id then ps else p :: removeFirst id ps

/-- POST `/products` (src/index.js lines 86-96): `insertOne(req.body)`, then
`redis.del('products')`, then `res.status(201).json(result)`; any awaited
rejection falls to the catch block → 500.  The inserted document (with its
store-assigned id) is the `doc` argument. -/
def postProducts (env : Env) (doc : Product) (w : World) : MutResult :=
  if env.storeMutateFails then
    ⟨500, .errorBody, w, [.storeMutate false]⟩
  else
    if env.cacheDelFails then
      ⟨500, .errorBody, { w with store := w.store ++ [doc] },
        [.storeMutate true, .cacheDel false]⟩
    else
      ⟨201, .insertOneRes doc.id,
        ⟨w.store ++ [doc], none⟩, [.storeMutate true, .cacheDel true]⟩

/-- PUT `/products/:id` (src/index.js lines 99-112): `updateOne({_id: id},
{$set: req.body})`, then `redis.del('products')`, then `res.json(result)`.
The `$set` payload is modelled as the patch it applies to a matched
document; `matchedCount` is 0 or 1, `modifiedCount` counts an actual
change. -/
def putProductsId (env : Env) (id : String) (patch : Product → Product)
    (w : World) : MutResult :=
  if env.storeMutateFails then
    ⟨500, .errorBody, w, [.storeMutate false]⟩
  else
    let w1 : World := { w with store := patchFirst id patch w.store }
    match findFirst id w.store with
    | none =>
        if env.cacheDelFails then
          ⟨500, .errorBody, w1, [.storeMutate true, .cacheDel false]⟩
        else
          ⟨200, .updateRes 0 0, { w1 with cache := none },
            [.storeMutate true, .cacheDel true]⟩
    | some p =>
        if env.cacheDelFails then
          ⟨500, .errorBody, w1, [.storeMutate true, .cacheDel false]⟩
        else
          ⟨200, .updateRes 1 (if patch p = p then 0 else 1),
            { w1 with cache := none }, [.storeMutate true, .cacheDel true]⟩

/-- DELETE `/products/:id` (src/index.js lines 115-125): `deleteOne({_id:
id})`, then `redis.del('products')`, then `res.json(result)`. -/
def deleteProductsId (env : Env) (id : String) (w : World) : MutResult :=
  if env.storeMutateFails then
    ⟨500, .errorBody, w, [.storeMutate false]⟩
  else
    let w1 : World := { w with store := removeFirst id w.store }
    if env.cacheDelFails then
      ⟨500, .errorBody, w1, [.storeMutate true, .cacheDel false]⟩
    else
      ⟨200, .deleteRes (if (findFirst id w.store).isSome then 1 else 0),
        { w1 with cache := none }, [.storeMutate true, .cacheDel true]⟩

/-- POST `/populate` (src/index.js lines 174-195): `insertMany(testProducts)`
of the 1000 synthetic documents, then `redis.del('products')`, then
`res.json({message, insertedCount})`.  The synthetic documents are produced
with `Math.random()`; the embedding takes the generated batch as the `docs`
argument (an oracle for the random draws). -/
def postPopulate (env : Env) (docs : List Product) (w : World) : MutResult :=
  if env.storeMutateFails then
    ⟨500, .errorBody, w, [.storeMutate false]⟩
  else
    if env.cacheDelFails then
      ⟨500, .errorBody, { w with store := w.store ++ docs },
        [.storeMutate true, .cacheDel false]⟩
    else
      ⟨200, .populateRes docs.length,
        ⟨w.store ++ docs, none⟩, [.storeMutate true, .cacheDel true]⟩

/-- The single group document the `/stats` aggregation produces on a
nonempty collection (`$group` with `_id: null`). -/
structure StatsDoc where
  totalProducts : Nat
  avgPrice : ℚ
  minPrice : ℚ
  maxPrice : ℚ
  categoryCounts : List (String × Nat)
deriving DecidableEq, Repr

/-- The aggregation pipeline of GET `/stats` (src/index.js lines 146-163):
`$group` over all documents with `$sum: 1`, `$avg`/`$min`/`$max` of
`$price`, and `$push {category: '$category', count: 1}` — one pushed entry
per document, in collection order.  An empty collection produces no group,
so the result array is empty (`none` here). -/
def aggregateStats : List Product → Option StatsDoc
  | [] => none
  | p :: ps =>
      some ⟨(p :: ps).length,
        (((p :: ps).map Product.price).sum) / ((p :: ps).length : ℚ),
        ps.foldl (fun m q => min m q.price) p.price,
        ps.foldl (fun m q => max m q.price) p.price,
        (p :: ps).map (fun q => (q.category, 1))⟩

/-- The JavaScript object `stats[0]` materializes as (the `$group` `_id` is
the literal `null`). -/
def jsOfStats (st : StatsDoc) : JSVal :=
  .vobj [("_id", .vnull),
         ("totalProducts", .vnum st.totalProducts),
         ("avgPrice", .vnum st.avgPrice),
         ("minPrice", .vnum st.minPrice),
         ("maxPrice", .vnum st.maxPrice),
         ("categoryCounts", .varr (st.categoryCounts.map (fun kv =>
            .vobj [("category", .vstr kv.1), ("count", .vnum kv.2)])))]

/-- GET `/stats` (src/index.js lines 146-171): run the aggregation, then
`res.json(stats[0])` — on an empty collection `stats` is `[]`, `stats[0]`
is `undefined`, and Express sends status 200 with an empty body. -/
def getStats (env : Env) (w : World) : ReadResult :=
  if env.storeQueryFails then
    ⟨500, .error, w, [.storeQuery false]⟩
  else
    match aggregateStats w.store with
    | none => ⟨200, .empty, w, [.storeQuery true]⟩
    | some st => ⟨200, .json (jsOfStats st), w, [.storeQuery true]⟩

/-- Abstract syntax of the PCRE fragment the search route's `$regex` can
be exercised with in this development: the empty language, the empty word,
single-character literals (compared case-insensitively, `$options: 'i'`),
the wildcard `.`, concatenation, alternation `|` and Kleene star `*`
(`+` and `?` are expressed by `seq`/`alt` during parsing). -/
inductive Regex where
  | nul
  | eps
  | lit (c : Char)
  | dot
  | seq (a b : Regex)
  | alt (a b : Regex)
  | star (a : Regex)
deriving DecidableEq, Repr

/-- Whether a regex matches the empty word. -/
def nullable : Regex → Bool
  | .nul => false
  | .eps => true
  | .lit _ => false
  | .dot => false
  | .seq a b => nullable a && nullable b
  | .alt a b => nullable a || nullable b
  | .star _ => true

/-- Brzozowski derivative: the regex matching exactly the words `w` such
that `x :: w` matches the argument.  Literals compare case-insensitively,
implementing the `i` option. -/
def rderiv (x : Char) : Regex → Regex
  | .nul => .nul
  | .eps => .nul
  | .lit c => if c.toLower = x.toLower then .eps else .nul
  | .dot => .eps
  | .seq a b =>
      if nullable a then .alt (.seq (rderiv x a) b) (rderiv x b)
      else .seq (rderiv x a) b
  | .alt a b => .alt (rderiv x a) (rderiv x b)
  | .star a => .seq (rderiv x a) (.star a)

/-- Whether the regex matches some (possibly empty) prefix of the word. -/
def existsPrefixMatch : Regex → List Char → Bool
  | r, [] => nullable r
  | r, x :: s => nullable r || existsPrefixMatch (rderiv x r) s

/-- Unanchored regex search: whether the regex matches some contiguous run
of the word, starting at any position — the success criterion of MongoDB's
`$regex` filter. -/
def searchAnywhere (r : Regex) : List Char → Bool
  | [] => nullable r
  | x :: s => existsPrefixMatch r (x :: s) || searchAnywhere r s

/-- The characters PCRE treats specially outside character classes. -/
def pcreMeta : List Char :=
  ['.', '^', '$', '*', '+', '?', '(', ')', '[', ']', '\x7b', '\x7d', '|', '\\']

/-- Postfix quantifiers after an atom: `*` (star), `+` (one or more),
`?` (optional), applied repeatedly (a quantifier following a quantifier,
e.g. the lazy `*?`, denotes the same language for a Boolean match). -/
def parsePost (a : Regex) : List Char → Regex × List Char
  | [] => (a, [])
  | c :: rest =>
      if c = '*' then parsePost (.star a) rest
      else if c = '+' then parsePost (.seq a (.star a)) rest
      else if c = '?' then parsePost (.alt a .eps) rest
      else (a, c :: rest)

/-- Concatenation of a list of factors. -/
def catOf (rs : List Regex) : Regex := rs.foldr .seq .eps

mutual
/-- One atom of a pattern: a parenthesised group, the wildcard `.`, an
escaped metacharacter (`\\` followed by a non-alphanumeric character is
that literal character), or a literal non-metacharacter.  Constructs
outside the modelled fragment — character classes `[...]`, counted
repetition, anchors `^`/`$`, alphanumeric escapes (`\\d` etc.), and
quantifiers with nothing to repeat — yield `none` (pattern not modelled).
Fuel decreases on every recursive call; `parseRegex` supplies enough. -/
def parseAtom : Nat → List Char → Option (Regex × List Char)
  | 0, _ => none
  | _ + 1, [] => none
  | fuel + 1, c :: rest =>
      if c = '(' then
        match parseAlt fuel rest with
        | some (r, rest2) =>
            match rest2 with
            | ')' :: rest3 => some (r, rest3)
            | _ => none
        | none => none
      else if c = '.' then some (.dot, rest)
      else if c = '\\' then
        match rest with
        | [] => none
        | d :: rest2 => if d.isAlphanum then none else some (.lit d, rest2)
      else if c ∈ pcreMeta then none
      else some (.lit c, rest)

/-- A concatenation of quantified atoms, stopping (without consuming) at
`)` or `|`; returns the list of factors. -/
def parseCat : Nat → List Regex → List Char → Option (List Regex × List Char)
  | 0, _, _ => none
  | _ + 1, acc, [] => some (acc, [])
  | fuel + 1, acc, c :: rest =>
      if c = ')' then some (acc, c :: rest)
      else if c = '|' then some (acc, c :: rest)
      else
        match parseAtom fuel (c :: rest) with
        | none => none
        | some (a, rest2) =>
            match parsePost a rest2 with
            | (a2, rest3) => parseCat fuel (acc ++ [a2]) rest3

/-- An alternation of concatenations. -/
def parseAlt : Nat → List Char → Option (Regex × List Char)
  | 0, _ => none
  | fuel + 1, s =>
      match parseCat fuel [] s with
      | none => none
      | some (rs, rest) =>
          match rest with
          | '|' :: rest2 =>
              match parseAlt fuel rest2 with
              | some (r2, rest3) => some (.alt (catOf rs) r2, rest3)
              | none => none
          | _ => some (catOf rs, rest)
end

/-- Parse a whole pattern.  `none` means the pattern uses a construct
outside the modelled fragment (or is invalid); every pattern of literals,
`.`, `*`, `+`, `?`, `|`, groups and escaped metacharacters parses. -/
def parseRegex (pat : String) : Option Regex :=
  match parseAlt (2 * pat.toList.length + 2) pat.toList with
  | some (r, []) => some r
  | _ => none

/-- `{$regex: pat, $options: 'i'}` applied to a string field: unanchored
case-insensitive search with the parsed pattern.  A pattern outside the
modelled fragment yields `false`; no claim in this development evaluates
the route on such patterns. -/
def regexTestCI (pat str : String) : Bool :=
  match parseRegex pat with
  | some r => searchAnywhere r str.toList
  | none => false

/-- GET `/products/search/:query` filter (src/index.js lines 128-143):
documents whose `name` or `description` satisfies the case-insensitive
regex `query`. -/
def searchProducts (q : String) (ps : List Product) : List Product :=
  ps.filter (fun p => regexTestCI q p.name || regexTestCI q p.description)

/-- GET `/products/search/:query` (src/index.js lines 128-143). -/
def getProductsSearch (env : Env) (q : String) (w : World) : ReadResult :=
  if env.storeQueryFails then
    ⟨500, .error, w, [.storeQuery false]⟩
  else
    ⟨200, .json (jsOfListing (searchProducts q w.store)), w,
      [.storeQuery true]⟩

/-- `leadsWith n h`: the character list `n` occurs at the start of `h`
(exact comparison; used on already-lowercased lists). -/
def leadsWith : List Char → List Char → Bool
  | [], _ => true
  | _ :: _, [] => false
  | a :: n, b :: h => a = b && leadsWith n h

/-- `containsSub n h`: `n` occurs as a contiguous run somewhere in `h`. -/
def containsSub (n : List Char) : List Char → Bool
  | [] => n.isEmpty
  | x :: h => leadsWith n (x :: h) || containsSub n h

/-- Case-insensitive substring containment of `needle` in `hay` — the
behaviour the specification ascribes to the search route. -/
def containsCI (needle hay : String) : Bool :=
  containsSub (needle.toList.map Char.toLower) (hay.toList.map Char.toLower)

/-- `delsCovered seen t`: every cache-key deletion in the trace `t` comes
strictly after some store mutation that was acknowledged as successful
(`seen` records whether one has already been acknowledged). -/
def delsCovered : Bool → List Ev → Bool
  | _, [] => true
  | seen, .cacheDel _ :: t => seen && delsCovered seen t
  | seen, .storeMutate ok :: t => delsCovered (seen || ok) t
  | seen, .storeQuery _ :: t => delsCovered seen t
  | seen, .cacheGet _ :: t => delsCovered seen t
  | seen, .cacheSet _ :: t => delsCovered seen t

/-- Sample document used in the concrete instances below. -/
def sampleA : Product := ⟨"a", "ab", "cd", 2, "Books", true, 5⟩

/-- Second sample document (same category as `sampleA`). -/
def sampleB : Product := ⟨"b", "Widget", "A fine widget", 4, "Books", false, 6⟩

theorem foldl_min_le (l : List Product) (a : ℚ) :
    l.foldl (fun m q => min m q.price) a ≤ a := by
  induction l generalizing a with
  | nil => exact le_refl a
  | cons x t ih =>
      exact le_trans (ih (min a x.price)) (min_le_left _ _)

theorem foldl_min_le_mem (l : List Product) (a : ℚ) (q : Product)
    (hq : q ∈ l) : l.foldl (fun m r => min m r.price) a ≤ q.price := by
  induction l generalizing a with
  | nil => cases hq
  | cons x t ih =>
      rcases List.mem_cons.mp hq with h | h
      · subst h
        exact le_trans (foldl_min_le t _) (min_le_right _ _)
      · exact ih _ h

theorem foldl_min_mem (l : List Product) (a : ℚ) :
    l.foldl (fun m r => min m r.price) a = a ∨
    ∃ q ∈ l, l.foldl (fun m r => min m r.price) a = q.price := by
  induction l generalizing a with
  | nil => exact Or.inl rfl
  | cons x t ih =>
      rcases ih (min a x.price) with h | ⟨q, hq, h⟩
      · rcases min_choice a x.price with he | he
        · exact Or.inl (by rw [List.foldl_cons, h, he])
        · exact Or.inr ⟨x, List.mem_cons_self x t, by rw [List.foldl_cons, h, he]⟩
      · exact Or.inr ⟨q, List.mem_cons_of_mem _ hq, by rw [List.foldl_cons]; exact h⟩

theorem le_foldl_max (l : List Product) (a : ℚ) :
    a ≤ l.foldl (fun m q => max m q.price) a := by
  induction l generalizing a with
  | nil => exact le_refl a
  | cons x t ih =>
      exact le_trans (le_max_left _ _) (ih (max a x.price))

theorem mem_le_foldl_max (l : List Product) (a : ℚ) (q : Product)
    (hq : q ∈ l) : q.price ≤ l.foldl (fun m r => max m r.price) a := by
  induction l generalizing a with
  | nil => cases hq
  | cons x t ih =>
      rcases List.mem_cons.mp hq with h | h
      · subst h
        exact le_trans (le_max_right _ _) (le_foldl_max t _)
      · exact ih _ h

theorem foldl_max_mem (l : List Product) (a : ℚ) :
    l.foldl (fun m r => max m r.price) a = a ∨
    ∃ q ∈ l, l.foldl (fun m r => max m r.price) a = q.price := by
  induction l generalizing a with
  | nil => exact Or.inl rfl
  | cons x t ih =>
      rcases ih (max a x.price) with h | ⟨q, hq, h⟩
      · rcases max_choice a x.price with he | he
        · exact Or.inl (by rw [List.foldl_cons, h, he])
        · exact Or.inr ⟨x, List.mem_cons_self x t, by rw [List.foldl_cons, h, he]⟩
      · exact Or.inr ⟨q, List.mem_cons_of_mem _ hq, by rw [List.foldl_cons]; exact h⟩

theorem findFirst_eq_none (id : String) (l : List Product)
    (h : ∀ p ∈ l, p.id ≠ id) : findFirst id l = none := by
  induction l with
  | nil => rfl
  | cons x t ih =>
      have hx := h x (List.mem_cons_self x t)
      simp only [findFirst, if_neg hx]
      exact ih fun p hp => h p (List.mem_cons_of_mem _ hp)

theorem patchFirst_no_match (id : String) (patch : Product → Product)
    (l : List Product) (h : ∀ p ∈ l, p.id ≠ id) :
    patchFirst id patch l = l := by
  induction l with
  | nil => rfl
  | cons x t ih =>
      have hx := h x (List.mem_cons_self x t)
      simp only [patchFirst, if_neg hx]
      exact congrArg (x :: ·) (ih fun p hp => h p (List.mem_cons_of_mem _ hp))

theorem removeFirst_no_match (id : String) (l : List Product)
    (h : ∀ p ∈ l, p.id ≠ id) : removeFirst id l = l := by
  induction l with
  | nil => rfl
  | cons x t ih =>
      have hx := h x (List.mem_cons_self x t)
      simp only [removeFirst, if_neg hx]
      exact congrArg (x :: ·) (ih fun p hp => h p (List.mem_cons_of_mem _ hp))

theorem epm_nul (s : List Char) : existsPrefixMatch .nul s = false := by
  induction s with
  | nil => rfl
  | cons x s ih => simp [existsPrefixMatch, rderiv, nullable, ih]

theorem epm_seq_nul (s : List Char) (r : Regex) :
    existsPrefixMatch (.seq .nul r) s = false := by
  induction s with
  | nil => rfl
  | cons x s ih => simp [existsPrefixMatch, rderiv, nullable, ih]

theorem epm_alt (s : List Char) : ∀ a b : Regex,
    existsPrefixMatch (.alt a b) s
      = (existsPrefixMatch a s || existsPrefixMatch b s) := by
  induction s with
  | nil => intro a b; rfl
  | cons x s ih =>
      intro a b
      simp [existsPrefixMatch, rderiv, nullable, ih, Bool.or_assoc,
        Bool.or_comm, Bool.or_left_comm]

theorem epm_seq_eps (s : List Char) : ∀ r : Regex,
    existsPrefixMatch (.seq .eps r) s = existsPrefixMatch r s := by
  induction s with
  | nil => intro r; simp [existsPrefixMatch, nullable]
  | cons x s ih =>
      intro r
      simp [existsPrefixMatch, nullable, rderiv, epm_alt, epm_seq_nul, ih]

theorem epm_cat_lits (s : List Char) : ∀ l : List Char,
    existsPrefixMatch (catOf (l.map .lit)) s
      = leadsWith (l.map Char.toLower) (s.map Char.toLower) := by
  induction s with
  | nil =>
      intro l
      cases l with
      | nil => rfl
      | cons c t => rfl
  | cons x s ih =>
      intro l
      cases l with
      | nil => simp [catOf, existsPrefixMatch, nullable, leadsWith]
      | cons c t =>
          simp only [List.map_cons, catOf, List.foldr_cons, existsPrefixMatch,
            leadsWith]
          by_cases hcx : c.toLower = x.toLower
          · simp [nullable, rderiv, hcx, epm_seq_eps]
            simpa [catOf] using ih t
          · simp [nullable, rderiv, hcx, epm_seq_nul]

theorem search_cat_lits (s : List Char) : ∀ l : List Char,
    searchAnywhere (catOf (l.map .lit)) s
      = containsSub (l.map Char.toLower) (s.map Char.toLower) := by
  induction s with
  | nil =>
      intro l
      cases l with
      | nil => rfl
      | cons c t => rfl
  | cons x s ih =>
      intro l
      simp only [searchAnywhere, List.map_cons, containsSub]
      rw [epm_cat_lits, ih]
      simp

theorem notMem_pcreMeta_ne (c d : Char) (hc : c ∉ pcreMeta)
    (hd : d ∈ pcreMeta) : c ≠ d :=
  fun h => hc (h ▸ hd)

theorem parsePost_of_not_meta (a : Regex) (l : List Char)
    (h : ∀ c ∈ l, c ∉ pcreMeta) : parsePost a l = (a, l) := by
  cases l with
  | nil => rfl
  | cons c t =>
      have hc := h c (List.mem_cons_self c t)
      have h1 : c ≠ '*' := notMem_pcreMeta_ne c _ hc (by decide)
      have h2 : c ≠ '+' := notMem_pcreMeta_ne c _ hc (by decide)
      have h3 : c ≠ '?' := notMem_pcreMeta_ne c _ hc (by decide)
      simp [parsePost, h1, h2, h3]

theorem parseAtom_lit (fuel : Nat) (c : Char) (rest : List Char)
    (hc : c ∉ pcreMeta) :
    parseAtom (fuel + 1) (c :: rest) = some (.lit c, rest) := by
  have h1 : c ≠ '(' := notMem_pcreMeta_ne c _ hc (by decide)
  have h2 : c ≠ '.' := notMem_pcreMeta_ne c _ hc (by decide)
  have h3 : c ≠ '\\' := notMem_pcreMeta_ne c _ hc (by decide)
  simp [parseAtom, h1, h2, h3, hc]

theorem parseCat_lits : ∀ l : List Char, (∀ c ∈ l, c ∉ pcreMeta) →
    ∀ (fuel : Nat) (acc : List Regex), l.length < fuel →
    parseCat fuel acc l = some (acc ++ l.map .lit, []) := by
  intro l
  induction l with
  | nil =>
      intro _ fuel acc hf
      cases fuel with
      | zero => exact (Nat.not_lt_zero _ hf).elim
      | succ f => simp [parseCat]
  | cons c t ih =>
      intro h fuel acc hf
      have hc := h c (List.mem_cons_self c t)
      have ht : ∀ d ∈ t, d ∉ pcreMeta :=
        fun d hd => h d (List.mem_cons_of_mem _ hd)
      cases fuel with
      | zero => exact (Nat.not_lt_zero _ hf).elim
      | succ f =>
          have hf2 : t.length < f := by
            simpa using Nat.lt_of_succ_lt_succ hf
          have h1 : c ≠ ')' := notMem_pcreMeta_ne c _ hc (by decide)
          have h2 : c ≠ '|' := notMem_pcreMeta_ne c _ hc (by decide)
          cases f with
          | zero => exact (Nat.not_lt_zero _ hf2).elim
          | succ f2 =>
              rw [parseCat, if_neg h1, if_neg h2, parseAtom_lit f2 c t hc]
              simp [parsePost_of_not_meta _ t ht,
                ih ht (f2 + 1) (acc ++ [.lit c]) hf2]

theorem parseAlt_lits (l : List Char) (h : ∀ c ∈ l, c ∉ pcreMeta)
    (fuel : Nat) (hf : l.length + 1 < fuel) :
    parseAlt fuel l = some (catOf (l.map .lit), []) := by
  cases fuel with
  | zero => exact (Nat.not_lt_zero _ hf).elim
  | succ f =>
      rw [parseAlt, parseCat_lits l h f [] (by omega)]
      simp

theorem parseRegex_lits (q : String) (h : ∀ c ∈ q.toList, c ∉ pcreMeta) :
    parseRegex q = some (catOf (q.toList.map .lit)) := by
  rw [parseRegex, parseAlt_lits q.toList h _ (by omega)]

theorem regexTestCI_eq_containsCI (q s : String)
    (h : ∀ c ∈ q.toList, c ∉ pcreMeta) :
    regexTestCI q s = containsCI q s := by
  rw [regexTestCI, parseRegex_lits q h]
  exact search_cat_lits s.toList q.toList

/-- Claim C1: on GET `/products-cached`, a cache hit returns the
deserialized cached value with zero store queries and zero cache writes
(and leaves the world unchanged); a cache miss performs exactly one store
query for the full unfiltered listing and exactly one cache write of its
serialization under the key with TTL 3600 seconds, and returns the freshly
queried listing. -/
theorem c1_read_through_cache (env : Env) (w : World)
    (hg : env.cacheGetFails = false) (hq : env.storeQueryFails = false)
    (hs : env.cacheSetFails = false) :
    (∀ e, w.cache = some e →
      (getProductsCached env w).status = 200 ∧
      (getProductsCached env w).body = .json (jsOfJson e.value) ∧
      storeQueries (getProductsCached env w).trace = 0 ∧
      cacheWrites (getProductsCached env w).trace = 0 ∧
      (getProductsCached env w).world = w) ∧
    (w.cache = none →
      (getProductsCached env w).status = 200 ∧
      (getProductsCached env w).body = .json (jsOfListing w.store) ∧
      storeQueries (getProductsCached env w).trace = 1 ∧
      cacheWrites (getProductsCached env w).trace = 1 ∧
      (getProductsCached env w).world
        = ⟨w.store, some ⟨wireOfListing w.store, 3600⟩⟩) := by
  constructor
  · intro e he
    simp [getProductsCached, hg, he, storeQueries, cacheWrites,
      isStoreQuery, isCacheSet]
  · intro he
    simp [getProductsCached, hg, hq, hs, he, storeQueries, cacheWrites,
      isStoreQuery, isCacheSet]

/-- Concrete instance of `c1_read_through_cache`: a miss on the one-document
store queries the store once, writes the serialized listing with TTL 3600,
and returns the listing. -/
theorem c1_read_through_cache_witness :
    (getProductsCached Env.ok ⟨[sampleA], none⟩).status = 200 ∧
    (getProductsCached Env.ok ⟨[sampleA], none⟩).body
      = .json (jsOfListing [sampleA]) ∧
    storeQueries (getProductsCached Env.ok ⟨[sampleA], none⟩).trace = 1 ∧
    cacheWrites (getProductsCached Env.ok ⟨[sampleA], none⟩).trace = 1 ∧
    (getProductsCached Env.ok ⟨[sampleA], none⟩).world
      = ⟨[sampleA], some ⟨wireOfListing [sampleA], 3600⟩⟩ :=
  (c1_read_through_cache Env.ok ⟨[sampleA], none⟩ rfl rfl rfl).2 rfl

/-- Claim C2 fails on the code: when `redis.get` rejects, the handler's
single `try/catch` responds 500 without querying the store, instead of
falling through to the store.  Concretely, with the cache unreachable and a
one-document store, GET `/products-cached` responds 500 with the error
payload and performs zero store queries. -/
theorem c2_cache_read_failure_counterexample :
    (getProductsCached ⟨true, false, false, false, false⟩
        ⟨[sampleA], none⟩).status = 500 ∧
    (getProductsCached ⟨true, false, false, false, false⟩
        ⟨[sampleA], none⟩).body = .error ∧
    storeQueries (getProductsCached ⟨true, false, false, false, false⟩
        ⟨[sampleA], none⟩).trace = 0 :=
  ⟨rfl, rfl, rfl⟩

/-- Claim C2 amended: when the cache read fails on GET `/products-cached`,
the handler responds 500 with the error payload, performs no store query
and no cache write, and leaves the world unchanged — the cache-read failure
is fatal to the request, not absorbed as a miss. -/
theorem c2_cache_read_failure_amended (env : Env) (w : World)
    (h : env.cacheGetFails = true) :
    (getProductsCached env w).status = 500 ∧
    (getProductsCached env w).body = .error ∧
    storeQueries (getProductsCached env w).trace = 0 ∧
    cacheWrites (getProductsCached env w).trace = 0 ∧
    (getProductsCached env w).world = w := by
  simp [getProductsCached, h, storeQueries, cacheWrites,
    isStoreQuery, isCacheSet]

/-- Concrete instance of `c2_cache_read_failure_amended`. -/
theorem c2_cache_read_failure_amended_witness :
    (getProductsCached ⟨true, false, false, false, false⟩
        ⟨[sampleA], some ⟨wireOfListing [sampleA], 3600⟩⟩).status = 500 ∧
    (getProductsCached ⟨true, false, false, false, false⟩
        ⟨[sampleA], some ⟨wireOfListing [sampleA], 3600⟩⟩).body = .error ∧
    storeQueries (getProductsCached ⟨true, false, false, false, false⟩
        ⟨[sampleA], some ⟨wireOfListing [sampleA], 3600⟩⟩).trace = 0 ∧
    cacheWrites (getProductsCached ⟨true, false, false, false, false⟩
        ⟨[sampleA], some ⟨wireOfListing [sampleA], 3600⟩⟩).trace = 0 ∧
    (getProductsCached ⟨true, false, false, false, false⟩
        ⟨[sampleA], some ⟨wireOfListing [sampleA], 3600⟩⟩).world
      = ⟨[sampleA], some ⟨wireOfListing [sampleA], 3600⟩⟩ :=
  c2_cache_read_failure_amended ⟨true, false, false, false, false⟩
    ⟨[sampleA], some ⟨wireOfListing [sampleA], 3600⟩⟩ rfl

/-- Claim C3 fails on the code: when the store query succeeds but the
subsequent `redis.set` rejects, the catch block responds 500 with the error
payload — the listing that was just queried (one store query was performed)
is not returned to the caller. -/
theorem c3_cache_write_failure_counterexample :
    (getProductsCached ⟨false, true, false, false, false⟩
        ⟨[sampleA], none⟩).status = 500 ∧
    (getProductsCached ⟨false, true, false, false, false⟩
        ⟨[sampleA], none⟩).body = .error ∧
    storeQueries (getProductsCached ⟨false, true, false, false, false⟩
        ⟨[sampleA], none⟩).trace = 1 :=
  ⟨rfl, rfl, rfl⟩

/-- Claim C3 amended: on a GET `/products-cached` miss in which the store
query succeeds but the cache write fails, the handler responds 500 with the
error payload after having performed the one store query; the cache-write
failure is fatal to the read, and the cache stays unpopulated. -/
theorem c3_cache_write_failure_amended (env : Env) (w : World)
    (hg : env.cacheGetFails = false) (hq : env.storeQueryFails = false)
    (hs : env.cacheSetFails = true) (hc : w.cache = none) :
    (getProductsCached env w).status = 500 ∧
    (getProductsCached env w).body = .error ∧
    storeQueries (getProductsCached env w).trace = 1 ∧
    (getProductsCached env w).world = w := by
  simp [getProductsCached, hg, hq, hs, hc, storeQueries, isStoreQuery]

/-- Concrete instance of `c3_cache_write_failure_amended`. -/
theorem c3_cache_write_failure_amended_witness :
    (getProductsCached ⟨false, true, false, false, false⟩
        ⟨[sampleA], none⟩).status = 500 ∧
    (getProductsCached ⟨false, true, false, false, false⟩
        ⟨[sampleA], none⟩).body = .error ∧
    storeQueries (getProductsCached ⟨false, true, false, false, false⟩
        ⟨[sampleA], none⟩).trace = 1 ∧
    (getProductsCached ⟨false, true, false, false, false⟩
        ⟨[sampleA], none⟩).world = ⟨[sampleA], none⟩ :=
  c3_cache_write_failure_amended ⟨false, true, false, false, false⟩
    ⟨[sampleA], none⟩ rfl rfl rfl rfl

/-- Claim C4 fails on the code: each mutation handler awaits
`redis.del('products')` inside the same `try/catch` as the store mutation,
so a rejected deletion sends the catch block's 500 error response even
though the mutation already committed.  Concretely, POST `/products` with
the cache-del failing responds 500 with the error body while the document
was inserted. -/
theorem c4_invalidation_failure_counterexample :
    (postProducts ⟨false, false, true, false, false⟩ sampleA
        ⟨[], none⟩).status = 500 ∧
    (postProducts ⟨false, false, true, false, false⟩ sampleA
        ⟨[], none⟩).body = .errorBody ∧
    (postProducts ⟨false, false, true, false, false⟩ sampleA
        ⟨[], none⟩).world.store = [sampleA] :=
  ⟨rfl, rfl, rfl⟩

/-- Claim C4 amended: for every mutation request (POST `/products`, PUT
`/products/:id`, DELETE `/products/:id`, POST `/populate`) in which the
store mutation succeeds but the subsequent cache-key deletion fails, the
handler responds 500 with the error payload even though the store mutation
has committed (the post-state store reflects the mutation); the
invalidation failure is not absorbed. -/
theorem c4_invalidation_failure_amended (env : Env) (doc : Product)
    (id : String) (patch : Product → Product) (docs : List Product)
    (w : World) (hm : env.storeMutateFails = false)
    (hd : env.cacheDelFails = true) :
    ((postProducts env doc w).status = 500 ∧
     (postProducts env doc w).body = .errorBody ∧
     (postProducts env doc w).world.store = w.store ++ [doc]) ∧
    ((putProductsId env id patch w).status = 500 ∧
     (putProductsId env id patch w).body = .errorBody ∧
     (putProductsId env id patch w).world.store
        = patchFirst id patch w.store) ∧
    ((deleteProductsId env id w).status = 500 ∧
     (deleteProductsId env id w).body = .errorBody ∧
     (deleteProductsId env id w).world.store = removeFirst id w.store) ∧
    ((postPopulate env docs w).status = 500 ∧
     (postPopulate env docs w).body = .errorBody ∧
     (postPopulate env docs w).world.store = w.store ++ docs) := by
  refine ⟨?_, ?_, ?_, ?_⟩
  · simp [postProducts, hm, hd]
  · cases hf : findFirst id w.store <;>
      simp [putProductsId, hm, hd, hf]
  · simp [deleteProductsId, hm, hd]
  · simp [postPopulate, hm, hd]

/-- Concrete instance of `c4_invalidation_failure_amended`. -/
theorem c4_invalidation_failure_amended_witness :
    ((postProducts ⟨false, false, true, false, false⟩ sampleA
        ⟨[], none⟩).status = 500 ∧
     (postProducts ⟨false, false, true, false, false⟩ sampleA
        ⟨[], none⟩).body = .errorBody ∧
     (postProducts ⟨false, false, true, false, false⟩ sampleA
        ⟨[], none⟩).world.store = [] ++ [sampleA]) ∧
    ((putProductsId ⟨false, false, true, false, false⟩ "a" id
        ⟨[], none⟩).status = 500 ∧
     (putProductsId ⟨false, false, true, false, false⟩ "a" id
        ⟨[], none⟩).body = .errorBody ∧
     (putProductsId ⟨false, false, true, false, false⟩ "a" id
        ⟨[], none⟩).world.store = patchFirst "a" id []) ∧
    ((deleteProductsId ⟨false, false, true, false, false⟩ "a"
        ⟨[], none⟩).status = 500 ∧
     (deleteProductsId ⟨false, false, true, false, false⟩ "a"
        ⟨[], none⟩).body = .errorBody ∧
     (deleteProductsId ⟨false, false, true, false, false⟩ "a"
        ⟨[], none⟩).world.store = removeFirst "a" []) ∧
    ((postPopulate ⟨false, false, true, false, false⟩ [sampleA, sampleB]
        ⟨[], none⟩).status = 500 ∧
     (postPopulate ⟨false, false, true, false, false⟩ [sampleA, sampleB]
        ⟨[], none⟩).body = .errorBody ∧
     (postPopulate ⟨false, false, true, false, false⟩ [sampleA, sampleB]
        ⟨[], none⟩).world.store = [] ++ [sampleA, sampleB]) :=
  c4_invalidation_failure_amended ⟨false, false, true, false, false⟩
    sampleA "a" id [sampleA, sampleB] ⟨[], none⟩ rfl rfl

/-- Claim C5: in every mutation handler (POST `/products`, PUT
`/products/:id`, DELETE `/products/:id`, POST `/populate`), under every
environment, every cache-key deletion in the executed trace comes strictly
after the store mutation was acknowledged as successful (`delsCovered`),
and whenever the store mutation succeeds a cache-key deletion is attempted
(the trace contains a `cacheDel` event). -/
theorem c5_invalidation_ordering (env : Env) (doc : Product) (id : String)
    (patch : Product → Product) (docs : List Product) (w : World) :
    (delsCovered false (postProducts env doc w).trace = true ∧
     (env.storeMutateFails = false →
       (postProducts env doc w).trace.any isCacheDel = true)) ∧
    (delsCovered false (putProductsId env id patch w).trace = true ∧
     (env.storeMutateFails = false →
       (putProductsId env id patch w).trace.any isCacheDel = true)) ∧
    (delsCovered false (deleteProductsId env id w).trace = true ∧
     (env.storeMutateFails = false →
       (deleteProductsId env id w).trace.any isCacheDel = true)) ∧
    (delsCovered false (postPopulate env docs w).trace = true ∧
     (env.storeMutateFails = false →
       (postPopulate env docs w).trace.any isCacheDel = true)) := by
  cases hm : env.storeMutateFails <;> cases hd : env.cacheDelFails <;>
    cases hf : findFirst id w.store <;>
      simp [postProducts, putProductsId, deleteProductsId, postPopulate,
        hm, hd, hf, delsCovered, isCacheDel]

/-- Concrete instance of `c5_invalidation_ordering` (healthy environment,
POST `/products` branch). -/
theorem c5_invalidation_ordering_witness :
    delsCovered false (postProducts Env.ok sampleA ⟨[], none⟩).trace
      = true ∧
    (postProducts Env.ok sampleA ⟨[], none⟩).trace.any isCacheDel = true :=
  ⟨(c5_invalidation_ordering Env.ok sampleA "a" id [] ⟨[], none⟩).1.1,
   (c5_invalidation_ordering Env.ok sampleA "a" id [] ⟨[], none⟩).1.2 rfl⟩

/-- Claim C6 fails on the code: the `/stats` aggregation builds
`categoryCounts` with `$push {category, count: 1}`, producing one entry per
document, not one entry per distinct category with its count.  Concretely,
with two documents both in category `"Books"`, the breakdown is
`[("Books", 1), ("Books", 1)]` — two entries for the single distinct
category, each with count 1, where the claim requires the single entry
`("Books", 2)`. -/
theorem c6_stats_counterexample :
    (aggregateStats [sampleA, sampleB]).map StatsDoc.categoryCounts
      = some [("Books", 1), ("Books", 1)] ∧
    (aggregateStats [sampleA, sampleB]).map StatsDoc.totalProducts
      = some 2 ∧
    ([sampleA, sampleB].filter (fun p => p.category = "Books")).length
      = 2 :=
  ⟨rfl, rfl, rfl⟩

/-- Claim C6 amended: on a nonempty collection, GET `/stats` returns the
aggregate record containing the total document count, the average price
(sum of prices divided by the count), the minimum and maximum price, and a
`categoryCounts` list with one entry per document in collection order, each
carrying that document's category and the constant count 1 (distinct
categories are not aggregated). -/
theorem c6_stats_amended (env : Env) (w : World) (p : Product)
    (ps : List Product) (hq : env.storeQueryFails = false)
    (hw : w.store = p :: ps) :
    ∃ st, aggregateStats w.store = some st ∧
      (getStats env w).status = 200 ∧
      (getStats env w).body = .json (jsOfStats st) ∧
      st.totalProducts = w.store.length ∧
      st.categoryCounts = w.store.map (fun q => (q.category, 1)) ∧
      (∀ q ∈ w.store, st.minPrice ≤ q.price ∧ q.price ≤ st.maxPrice) ∧
      (∃ a ∈ w.store, st.minPrice = a.price) ∧
      (∃ b ∈ w.store, st.maxPrice = b.price) ∧
      st.avgPrice * (w.store.length : ℚ)
        = (w.store.map Product.price).sum := by
  rcases w with ⟨ws, wc⟩
  simp only at hw
  subst hw
  have hlen : (((p :: ps).length : ℚ)) ≠ 0 :=
    Nat.cast_ne_zero.mpr (by simp)
  refine ⟨_, rfl, ?_, ?_, rfl, rfl, ?_, ?_, ?_, ?_⟩
  · simp [getStats, hq, aggregateStats]
  · simp [getStats, hq, aggregateStats]
  · intro r hr
    rcases List.mem_cons.mp hr with h | h
    · subst h
      exact ⟨foldl_min_le ps r.price, le_foldl_max ps r.price⟩
    · exact ⟨foldl_min_le_mem ps p.price r h, mem_le_foldl_max ps p.price r h⟩
  · rcases foldl_min_mem ps p.price with h | ⟨q, hq2, h⟩
    · exact ⟨p, List.mem_cons_self p ps, h⟩
    · exact ⟨q, List.mem_cons_of_mem _ hq2, h⟩
  · rcases foldl_max_mem ps p.price with h | ⟨q, hq2, h⟩
    · exact ⟨p, List.mem_cons_self p ps, h⟩
    · exact ⟨q, List.mem_cons_of_mem _ hq2, h⟩
  · exact div_mul_cancel₀ _ hlen

/-- Concrete instance of `c6_stats_amended` on a two-document store. -/
theorem c6_stats_amended_witness :
    ∃ st, aggregateStats [sampleA, sampleB] = some st ∧
      (getStats Env.ok ⟨[sampleA, sampleB], none⟩).status = 200 ∧
      (getStats Env.ok ⟨[sampleA, sampleB], none⟩).body
        = .json (jsOfStats st) ∧
      st.totalProducts = ([sampleA, sampleB] : List Product).length ∧
      st.categoryCounts
        = [sampleA, sampleB].map (fun q => (q.category, 1)) ∧
      (∀ q ∈ [sampleA, sampleB],
        st.minPrice ≤ q.price ∧ q.price ≤ st.maxPrice) ∧
      (∃ a ∈ [sampleA, sampleB], st.minPrice = a.price) ∧
      (∃ b ∈ [sampleA, sampleB], st.maxPrice = b.price) ∧
      st.avgPrice * (([sampleA, sampleB] : List Product).length : ℚ)
        = ([sampleA, sampleB].map Product.price).sum :=
  c6_stats_amended Env.ok ⟨[sampleA, sampleB], none⟩ sampleA [sampleB]
    rfl rfl

/-- Claim C7 fails on the code: the search route passes the raw `:query`
to `$regex`, so regex metacharacters are interpreted, not matched
literally.  Concretely, for the query `"."` and a store with the single
document `sampleA` (name `"ab"`, description `"cd"`), the route returns
the document although neither field contains `"."` as a substring — the
claimed result set (the filter by case-insensitive substring containment)
is empty. -/
theorem c7_search_counterexample :
    searchProducts "." [sampleA] = [sampleA] ∧
    [sampleA].filter
        (fun p => containsCI "." p.name || containsCI "." p.description)
      = [] :=
  ⟨rfl, rfl⟩

/-- Claim C7 amended: the query is interpreted as a case-insensitive
regular expression; for every query containing no PCRE metacharacter
(none of `. ^ $ * + ? ( ) [ ] \x7b \x7d | \\`), GET
`/products/search/:q` returns exactly the products whose name or
description contains the query as a substring, compared
case-insensitively. -/
theorem c7_search_amended (env : Env) (q : String) (w : World)
    (h : ∀ c ∈ q.toList, c ∉ pcreMeta)
    (hq : env.storeQueryFails = false) :
    searchProducts q w.store
      = w.store.filter
          (fun p => containsCI q p.name || containsCI q p.description) ∧
    (getProductsSearch env q w).status = 200 ∧
    (getProductsSearch env q w).body
      = .json (jsOfListing (w.store.filter
          (fun p => containsCI q p.name || containsCI q p.description))) := by
  have hfun : (fun p : Product =>
      regexTestCI q p.name || regexTestCI q p.description)
      = (fun p : Product =>
      containsCI q p.name || containsCI q p.description) := by
    funext p
    rw [regexTestCI_eq_containsCI _ _ h, regexTestCI_eq_containsCI _ _ h]
  have hfilter : searchProducts q w.store
      = w.store.filter
          (fun p => containsCI q p.name || containsCI q p.description) := by
    rw [searchProducts, hfun]
  exact ⟨hfilter,
    by simp [getProductsSearch, hq],
    by simp [getProductsSearch, hq, hfilter.symm, searchProducts]⟩

/-- Concrete instance of `c7_search_amended`: the metacharacter-free query
`"B"` returns exactly the documents containing it case-insensitively. -/
theorem c7_search_amended_witness :
    searchProducts "B" [sampleA, sampleB]
      = [sampleA, sampleB].filter
          (fun p => containsCI "B" p.name || containsCI "B" p.description) ∧
    (getProductsSearch Env.ok "B" ⟨[sampleA, sampleB], none⟩).status
      = 200 ∧
    (getProductsSearch Env.ok "B" ⟨[sampleA, sampleB], none⟩).body
      = .json (jsOfListing ([sampleA, sampleB].filter
          (fun p => containsCI "B" p.name || containsCI "B" p.description))) :=
  c7_search_amended Env.ok "B" ⟨[sampleA, sampleB], none⟩ (by decide) rfl

/-- Claim C8: a PUT or DELETE on `/products/:id` whose id matches no stored
document still responds 200 (not 404) with the driver's zero
matched/modified (resp. deleted) counts, leaves the collection unchanged,
and still deletes the cache key. -/
theorem c8_missing_id_mutations (env : Env) (w : World) (id : String)
    (patch : Product → Product) (hm : env.storeMutateFails = false)
    (hd : env.cacheDelFails = false) (habs : ∀ p ∈ w.store, p.id ≠ id) :
    (putProductsId env id patch w).status = 200 ∧
    (putProductsId env id patch w).body = .updateRes 0 0 ∧
    (putProductsId env id patch w).world = ⟨w.store, none⟩ ∧
    (putProductsId env id patch w).trace.any isCacheDel = true ∧
    (deleteProductsId env id w).status = 200 ∧
    (deleteProductsId env id w).body = .deleteRes 0 ∧
    (deleteProductsId env id w).world = ⟨w.store, none⟩ ∧
    (deleteProductsId env id w).trace.any isCacheDel = true := by
  have hff := findFirst_eq_none id w.store habs
  have hpf := patchFirst_no_match id patch w.store habs
  have hrf := removeFirst_no_match id w.store habs
  refine ⟨?_, ?_, ?_, ?_, ?_, ?_, ?_, ?_⟩ <;>
    simp [putProductsId, deleteProductsId, hm, hd, hff, hpf, hrf, isCacheDel]

/-- Concrete instance of `c8_missing_id_mutations` with the absent id
`"zz"`. -/
theorem c8_missing_id_mutations_witness :
    (putProductsId Env.ok "zz" id ⟨[sampleA], none⟩).status = 200 ∧
    (putProductsId Env.ok "zz" id ⟨[sampleA], none⟩).body
      = .updateRes 0 0 ∧
    (putProductsId Env.ok "zz" id ⟨[sampleA], none⟩).world
      = ⟨[sampleA], none⟩ ∧
    (putProductsId Env.ok "zz" id ⟨[sampleA], none⟩).trace.any isCacheDel
      = true ∧
    (deleteProductsId Env.ok "zz" ⟨[sampleA], none⟩).status = 200 ∧
    (deleteProductsId Env.ok "zz" ⟨[sampleA], none⟩).body
      = .deleteRes 0 ∧
    (deleteProductsId Env.ok "zz" ⟨[sampleA], none⟩).world
      = ⟨[sampleA], none⟩ ∧
    (deleteProductsId Env.ok "zz" ⟨[sampleA], none⟩).trace.any isCacheDel
      = true :=
  c8_missing_id_mutations Env.ok ⟨[sampleA], none⟩ "zz" id rfl rfl
    (by decide)

/-- Claim C9: on an empty collection the `/stats` aggregation produces no
group document, so the handler serializes `stats[0]` (`undefined`) and
Express sends status 200 with an empty body. -/
theorem c9_stats_empty (env : Env) (w : World)
    (hq : env.storeQueryFails = false) (hw : w.store = []) :
    (getStats env w).status = 200 ∧ (getStats env w).body = .empty := by
  simp [getStats, hq, hw, aggregateStats]

/-- Concrete instance of `c9_stats_empty`. -/
theorem c9_stats_empty_witness :
    (getStats Env.ok ⟨[], none⟩).status = 200 ∧
    (getStats Env.ok ⟨[], none⟩).body = .empty :=
  c9_stats_empty Env.ok ⟨[], none⟩ rfl rfl

/-- Claim C10: after a GET `/products-cached` miss on listing `L` populated
the cache, a subsequent hit (before expiry, i.e. while the entry is
present) returns `JSON.parse(JSON.stringify(L))` — the `jsOfJson ∘
jsonOfJs` image of the listing — while the miss itself returned `L`
directly; the two agree only up to JSON serialization. -/
theorem c10_hit_returns_serialization_image (env : Env) (w : World)
    (hg : env.cacheGetFails = false) (hq : env.storeQueryFails = false)
    (hs : env.cacheSetFails = false) (hw : w.cache = none) :
    (getProductsCached env (getProductsCached env w).world).status = 200 ∧
    (getProductsCached env (getProductsCached env w).world).body
      = .json (jsOfJson (jsonOfJs (jsOfListing w.store))) ∧
    (getProductsCached env w).body = .json (jsOfListing w.store) := by
  simp [getProductsCached, hg, hq, hs, hw, wireOfListing]

/-- Concrete instance of `c10_hit_returns_serialization_image`: on the
one-document store the hit body is the round-tripped listing, whose
`createdAt` field is the serialized ISO string, no longer a `Date`. -/
theorem c10_hit_returns_serialization_image_witness :
    (getProductsCached Env.ok
        (getProductsCached Env.ok ⟨[sampleA], none⟩).world).body
      = .json (jsOfJson (jsonOfJs (jsOfListing [sampleA]))) ∧
    jsOfJson (jsonOfJs (jsOfListing [sampleA]))
      = .varr [.vobj [("_id", .vstr "a"), ("name", .vstr "ab"),
          ("description", .vstr "cd"), ("price", .vnum 2),
          ("category", .vstr "Books"), ("inStock", .vbool true),
          ("createdAt", .vstr (isoOfDate 5))]] :=
  ⟨(c10_hit_returns_serialization_image Env.ok ⟨[sampleA], none⟩
      rfl rfl rfl rfl).2.1, rfl⟩
